import Mathlib

/-! The counter store and the `App` component.

A shallow embedding of `src/store/index.js` (the Redux Toolkit counter slice and
the store configured from it) and of `src/App.js` (the root component), with the
part of JavaScript's semantics those two files exercise:

* identifier resolution (an identifier that no enclosing scope binds raises a
  `ReferenceError` when it is read);
* property reads on `undefined` (a `TypeError`);
* the Number type: the values the counter can hold are the integer-valued
  IEEE-754 doubles together with `Infinity`, `-Infinity` and `NaN`, and `+`
  rounds the exact sum to the nearest double, ties to even.
-/

namespace ReactRedux

/-! ## JavaScript values -/

/-- Exceptions raised while evaluating the sources. -/
inductive JSError
  /-- Reading an identifier that is bound in no enclosing scope. -/
  | referenceError (ident : String)
  /-- Reading property `prop` of `undefined`. -/
  | typeError (prop : String)
  deriving DecidableEq, Repr

deriving instance DecidableEq for Except

/-- Number values: `fin n` is the double whose value is the integer `n` (every integer of
magnitude up to `2 ^ 53` is one, and beyond that only those with at most 53 significant
bits), and the other three are `Infinity`, `-Infinity` and `NaN`. Negative zero is
identified with zero (it never arises from adding values that are not themselves
negative zero). -/
inductive JSNum
  | fin (n : Int)
  | posInf
  | negInf
  | nan
  deriving DecidableEq, Repr

/-- For a magnitude `m`, the least `e` with `m / 2 ^ e < 2 ^ 53`: how many low bits do
not fit a 53-bit significand. The first argument bounds the recursion; `m` itself is
always enough. -/
def excessBits : Nat → Nat → Nat
  | 0, _ => 0
  | fuel + 1, m => if m < 2 ^ 53 then 0 else excessBits fuel (m / 2) + 1

/-- Round a magnitude to 53 significant bits, to nearest, ties to the even significand. -/
def roundMag (m : Nat) : Nat :=
  let e := excessBits m m
  let q := m / 2 ^ e
  let r := m % 2 ^ e
  if 2 ^ e < 2 * r ∨ (2 * r = 2 ^ e ∧ q % 2 = 1) then (q + 1) * 2 ^ e else q * 2 ^ e

/-- The double nearest to an exact integer result; magnitudes that round to `2 ^ 1024`
or more overflow to an infinity. -/
def toDouble (x : Int) : JSNum :=
  let m := roundMag x.natAbs
  if 2 ^ 1024 ≤ m then (if x < 0 then JSNum.negInf else JSNum.posInf)
  else JSNum.fin (if x < 0 then -(m : Int) else (m : Int))

/-- Whether the integer `n` is a Number, that is, whether some finite double has exactly
this value: rounding leaves it as it is. -/
def isDouble (n : Int) : Bool :=
  decide (toDouble n = JSNum.fin n)

/-- Number addition. -/
def JSNum.add : JSNum → JSNum → JSNum
  | .fin a, .fin b => toDouble (a + b)
  | .nan, _ => .nan
  | _, .nan => .nan
  | .posInf, .negInf => .nan
  | .negInf, .posInf => .nan
  | .posInf, _ => .posInf
  | _, .posInf => .posInf
  | .negInf, _ => .negInf
  | _, .negInf => .negInf

/-- The primitive values stored in the slice state and carried by actions. -/
inductive Prim
  | undefined
  | bool (b : Bool)
  | num (x : JSNum)
  deriving DecidableEq, Repr

/-- The abstract operation ToNumber on these primitives. -/
def toNumber : Prim → JSNum
  | .undefined => .nan
  | .bool true => .fin 1
  | .bool false => .fin 0
  | .num x => x

/-- The abstract operation ToBoolean on these primitives. -/
def toBoolean : Prim → Bool
  | .undefined => false
  | .bool b => b
  | .num (.fin n) => n ≠ 0
  | .num .nan => false
  | .num _ => true

/-- The binary `+` operator on these primitives (none is a string, so it is numeric). -/
def jsPlus (a b : Prim) : Prim :=
  .num ((toNumber a).add (toNumber b))

/-- The value stored by the postfix `++` operator: ToNumeric of the old value, plus one. -/
def jsIncr (a : Prim) : Prim :=
  .num ((toNumber a).add (.fin 1))

/-- A plain object with primitive-valued properties, in insertion order. -/
abbrev Obj := List (String × Prim)

/-- Property read `o.k`: `undefined` when the object has no such property. -/
def getProp (o : Obj) (k : String) : Prim :=
  (o.lookup k).getD .undefined

/-- Property write `o.k = v`: overwrites in place, or adds the property at the end. -/
def setProp : Obj → String → Prim → Obj
  | [], k, v => [(k, v)]
  | (k', v') :: rest, k, v =>
    if k' = k then (k, v) :: rest else (k', v') :: setProp rest k v

/-- The abstract operation ToBoolean on an object: every object is truthy. -/
def objToBoolean (_o : Obj) : Bool :=
  true

/-- A dispatched action: its `type` and its other (primitive-valued) properties. -/
structure Action where
  type : String
  props : Obj
  deriving DecidableEq, Repr

/-! ## `src/store/index.js` -/

/-- The names bound at module level in `store/index.js`: its two imports and three
constants. None of them, and no host global, is called `state`, `action` or
`showCounter`, the identifiers the reducer bodies read. -/
def moduleBindings : List String :=
  ["createSlice", "configureStore", "initialState", "counterSlice", "store"]

/-- Read identifier `x` inside a reducer whose parameters are bound as in `params`. The
identifiers the reducers read are not module bindings, so they resolve exactly when a
parameter has that name; otherwise the read raises a `ReferenceError`. -/
def evalIdent (params : List (String × Obj)) (x : String) : Except JSError Obj :=
  match params.lookup x with
  | some o => .ok o
  | none => .error (.referenceError x)

/-- Source: `const initialState = { counter: 0, showCounter: true };` -/
def initialState : Obj :=
  [("counter", .num (.fin 0)), ("showCounter", .bool true)]

namespace counterSlice

namespace reducers

/-- Source: `increment(state) { state.counter++; }` -/
def increment (state : Obj) (_action : Action) : Except JSError Obj := do
  let params := [("state", state)]
  let st ← evalIdent params "state"
  pure (setProp st "counter" (jsIncr (getProp st "counter")))

/-- Source: `decrement() { state.counter++; }`. The function declares no parameter, so
the arguments it is called with are bound to no name. -/
def decrement (_state : Obj) (_action : Action) : Except JSError Obj := do
  let params : List (String × Obj) := []
  let st ← evalIdent params "state"
  pure (setProp st "counter" (jsIncr (getProp st "counter")))

/-- Source: `increase(state, action) { state.counter = state.counter + action.amount; }` -/
def increase (state : Obj) (action : Action) : Except JSError Obj := do
  let params := [("state", state), ("action", action.props)]
  let target ← evalIdent params "state"
  let st ← evalIdent params "state"
  let act ← evalIdent params "action"
  pure (setProp target "counter" (jsPlus (getProp st "counter") (getProp act "amount")))

/-- Source: `toggle(state) { state.showCounter = !showCounter; }`. The assignment target
`state.showCounter` is evaluated first, then the right-hand side reads the bare
identifier `showCounter` (not the property `state.showCounter`) and negates it. -/
def toggle (state : Obj) (_action : Action) : Except JSError Obj := do
  let params := [("state", state)]
  let target ← evalIdent params "state"
  let showCounter ← evalIdent params "showCounter"
  pure (setProp target "showCounter" (.bool (!objToBoolean showCounter)))

end reducers

/-- The slice reducer `createSlice` builds: the state defaults to `initialState`, an
action of type `counter/<name>` runs the case reducer `<name>` on a draft of the state
(the case reducers return nothing, so the result is the draft with their writes applied),
and any other action returns the state as it is. An exception in a case reducer
propagates to the caller. -/
def reducer (state : Option Obj) (action : Action) : Except JSError Obj :=
  let s := state.getD initialState
  if action.type = "counter/increment" then reducers.increment s action
  else if action.type = "counter/decrement" then reducers.decrement s action
  else if action.type = "counter/increase" then reducers.increase s action
  else if action.type = "counter/toggle" then reducers.toggle s action
  else .ok s

end counterSlice

/-- What `configureStore({ reducer })` leaves in the store: the root reducer applied to
an undefined state and Redux's initialisation action. -/
def configureStore (reducer : Option Obj → Action → Except JSError Obj) : Except JSError Obj :=
  reducer none { type := "@@redux/INIT", props := [] }

/-- Source: `const store = configureStore({ reducer: counterSlice.reducer });` -/
def store : Except JSError Obj :=
  configureStore counterSlice.reducer

/-- The call `store.dispatch(action)` on a store holding `state`: the new state, or the
exception the reducer raised (the store then keeps `state`). -/
def dispatch (state : Obj) (action : Action) : Except JSError Obj :=
  counterSlice.reducer (some state) action

/-- The state the store holds once `store.dispatch(action)` has returned or thrown: the
reducer's result, or the state it held before when the reducer raised. -/
def stateAfter (state : Obj) (action : Action) : Obj :=
  match dispatch state action with
  | .ok s => s
  | .error _ => state

/-! ## `src/App.js` -/

/-- A property value of the root state: a primitive, or a slice object. -/
inductive JSVal
  | prim (p : Prim)
  | obj (o : Obj)
  deriving DecidableEq, Repr

/-- The state `useSelector` hands to a selector: the root state of the store. -/
abbrev RootState := List (String × JSVal)

/-- The root state of a store whose root reducer is the counter slice reducer: the slice
state itself. -/
def rootOf (s : Obj) : RootState :=
  s.map (fun kv => (kv.1, JSVal.prim kv.2))

/-- Property read `state.k` on the root state. -/
def getRoot (s : RootState) (k : String) : JSVal :=
  (s.lookup k).getD (.prim .undefined)

/-- Property read `v.k` on a value: a `TypeError` on `undefined`, the property on an
object, `undefined` on a boolean or number (which carry no own data properties). -/
def getMember : JSVal → String → Except JSError Prim
  | .obj o, k => .ok (getProp o k)
  | .prim .undefined, k => .error (.typeError k)
  | .prim _, _ => .ok .undefined

/-- What React puts in the tree for a child. -/
inductive Node
  | component (name : String)
  | text (x : JSNum)
  deriving DecidableEq, Repr

/-- A primitive child: booleans and `undefined` render nothing, a number renders as text. -/
def renderPrim : Prim → List Node
  | .num x => [.text x]
  | _ => []

/-- Source: `App`. The selector is `(state) => state.auth.isAuthenticated`; the first
child is `auth && <UserProfile />`, followed by `Header`, `Auth` and `Counter`. -/
def App (state : RootState) : Except JSError (List Node) := do
  let auth ← getMember (getRoot state "auth") "isAuthenticated"
  let first := if toBoolean auth then [Node.component "UserProfile"] else renderPrim auth
  pure (first ++ [Node.component "Header", Node.component "Auth", Node.component "Counter"])

/-! ## Number rounding in the safe range -/

theorem excessBits_of_lt (fuel m : Nat) (h : m < 2 ^ 53) : excessBits fuel m = 0 := by
  cases fuel with
  | zero => rfl
  | succ n =>
    unfold excessBits
    rw [if_pos h]

theorem roundMag_of_lt (m : Nat) (h : m < 2 ^ 53) : roundMag m = m := by
  simp [roundMag, excessBits_of_lt m m h, Nat.mod_one]

theorem roundMag_two_pow : roundMag (2 ^ 53) = 2 ^ 53 := by decide!

theorem roundMag_of_le (m : Nat) (h : m ≤ 2 ^ 53) : roundMag m = m := by
  rcases Nat.lt_or_eq_of_le h with h1 | h1
  · exact roundMag_of_lt m h1
  · rw [h1]; exact roundMag_two_pow

theorem toDouble_of_safe (x : Int) (hlo : -(2 ^ 53) ≤ x) (hhi : x ≤ 2 ^ 53) :
    toDouble x = JSNum.fin x := by
  have hm : x.natAbs ≤ 2 ^ 53 := by omega
  have hbig : ¬ (2 ^ 1024 ≤ x.natAbs) := by
    intro h
    have h2 : (2 : Nat) ^ 1024 ≤ 2 ^ 53 := Nat.le_trans h hm
    exact absurd ((Nat.pow_le_pow_iff_right (by decide)).mp h2) (by decide)
  simp only [toDouble, roundMag_of_le _ hm, hbig, if_false]
  congr 1
  split <;> omega

theorem add_fin_of_safe (a b : Int) (hlo : -(2 ^ 53) ≤ a + b) (hhi : a + b ≤ 2 ^ 53) :
    (JSNum.fin a).add (JSNum.fin b) = JSNum.fin (a + b) := by
  show toDouble (a + b) = _
  exact toDouble_of_safe _ hlo hhi

/-! ## Property reads after writes -/

theorem getProp_setProp_same (o : Obj) (k : String) (v : Prim) :
    getProp (setProp o k v) k = v := by
  induction o with
  | nil => simp [setProp, getProp, List.lookup]
  | cons p rest ih =>
    obtain ⟨k', v'⟩ := p
    by_cases h : k' = k
    · simp [setProp, getProp, List.lookup, h]
    · have hb : (k == k') = false := by simpa using fun e => h e.symm
      simp only [setProp, h, if_false, getProp, List.lookup, hb]
      exact ih

theorem getProp_setProp_other (o : Obj) (k k' : String) (v : Prim) (h : k' ≠ k) :
    getProp (setProp o k v) k' = getProp o k' := by
  induction o with
  | nil =>
    have hb : (k' == k) = false := by simpa using h
    simp [setProp, getProp, List.lookup, hb]
  | cons p rest ih =>
    obtain ⟨k1, v1⟩ := p
    by_cases h1 : k1 = k
    · subst h1
      have hb : (k' == k1) = false := by simpa using h
      simp [setProp, getProp, List.lookup, hb]
    · simp only [setProp, h1, if_false, getProp, List.lookup]
      cases hb : (k' == k1)
      · exact ih
      · rfl

theorem setProp_setProp_same (o : Obj) (k : String) (v w : Prim) :
    setProp (setProp o k v) k w = setProp o k w := by
  induction o with
  | nil => simp [setProp]
  | cons p rest ih =>
    obtain ⟨k1, v1⟩ := p
    by_cases h1 : k1 = k
    · simp [setProp, h1]
    · simp [setProp, h1, ih]

/-! ## The case reducers -/

open counterSlice.reducers

/-- The identifiers the reducer bodies read are not bound at module level, so reading
them is decided by the parameter list alone, as `evalIdent` has it. -/
theorem reducer_identifiers_not_module_level :
    "state" ∉ moduleBindings ∧ "action" ∉ moduleBindings ∧ "showCounter" ∉ moduleBindings := by
  decide

theorem increment_eq (s : Obj) (a : Action) :
    increment s a = .ok (setProp s "counter" (jsIncr (getProp s "counter"))) := rfl

theorem increase_eq (s : Obj) (a : Action) :
    increase s a =
      .ok (setProp s "counter" (jsPlus (getProp s "counter") (getProp a.props "amount"))) := rfl

theorem decrement_eq (s : Obj) (a : Action) :
    decrement s a = .error (.referenceError "state") := rfl

theorem toggle_eq (s : Obj) (a : Action) :
    toggle s a = .error (.referenceError "showCounter") := rfl

/-- C1, amended: from a state whose counter is an integer `N` with `-2^53 ≤ N < 2^53`,
whatever else the state holds, `increment` returns a state whose counter is `N + 1`. -/
theorem increment_counter_succ (s : Obj) (a : Action) (N : Int)
    (hs : getProp s "counter" = .num (.fin N))
    (hlo : -(2 ^ 53) ≤ N) (hhi : N < 2 ^ 53) :
    ∃ s', increment s a = .ok s' ∧ getProp s' "counter" = .num (.fin (N + 1)) := by
  refine ⟨_, increment_eq s a, ?_⟩
  rw [getProp_setProp_same, hs]
  simp only [jsIncr, toNumber]
  rw [add_fin_of_safe N 1 (by omega) (by omega)]

/-- C1, witness: `increment` takes counter `-7` (with `showCounter` false) to `-6`. -/
theorem increment_counter_succ_witness :
    ∃ s', increment [("counter", .num (.fin (-7))), ("showCounter", .bool false)]
        { type := "counter/increment", props := [] } = .ok s' ∧
      getProp s' "counter" = .num (.fin (-7 + 1)) :=
  increment_counter_succ _ _ (-7) rfl (by decide) (by decide)

/-- C1, counterexample: at counter `2^53` the sum `2^53 + 1` is not a Number and rounds
back to `2^53`, so `increment` returns the state unchanged and its counter is not
`2^53 + 1`. -/
theorem increment_at_two_pow_53 :
    increment [("counter", .num (.fin (2 ^ 53))), ("showCounter", .bool true)]
        { type := "counter/increment", props := [] } =
      .ok [("counter", .num (.fin (2 ^ 53))), ("showCounter", .bool true)] ∧
    ¬ ∃ s', increment [("counter", .num (.fin (2 ^ 53))), ("showCounter", .bool true)]
        { type := "counter/increment", props := [] } = .ok s' ∧
      getProp s' "counter" = .num (.fin (2 ^ 53 + 1)) := by
  have h : increment [("counter", .num (.fin (2 ^ 53))), ("showCounter", .bool true)]
        { type := "counter/increment", props := [] } =
      .ok [("counter", .num (.fin (2 ^ 53))), ("showCounter", .bool true)] := by decide!
  refine ⟨h, ?_⟩
  rintro ⟨s', hs', hc⟩
  rw [h] at hs'
  cases hs'
  revert hc
  decide!

/-- C2, amended: from a state whose counter is an integer `N`, `increase` with an action
whose `amount` is an integer `K` (of either sign, or zero; no check is made on it)
returns a state whose counter is `N + K`, provided `-2^53 ≤ N + K ≤ 2^53`. -/
theorem increase_counter_add (s : Obj) (a : Action) (N K : Int)
    (hs : getProp s "counter" = .num (.fin N))
    (ha : getProp a.props "amount" = .num (.fin K))
    (hlo : -(2 ^ 53) ≤ N + K) (hhi : N + K ≤ 2 ^ 53) :
    ∃ s', increase s a = .ok s' ∧ getProp s' "counter" = .num (.fin (N + K)) := by
  refine ⟨_, increase_eq s a, ?_⟩
  rw [getProp_setProp_same, hs, ha]
  simp only [jsPlus, toNumber]
  rw [add_fin_of_safe N K hlo hhi]

/-- C2, witness: `increase` with amount `-5` takes counter `3` to `3 + -5`. -/
theorem increase_counter_add_witness :
    ∃ s', increase [("counter", .num (.fin 3)), ("showCounter", .bool true)]
        { type := "counter/increase", props := [("amount", .num (.fin (-5)))] } = .ok s' ∧
      getProp s' "counter" = .num (.fin (3 + -5)) :=
  increase_counter_add _ _ 3 (-5) rfl rfl (by decide) (by decide)

/-- C2, counterexample: with counter `2^53` and amount `1` the sum rounds back to `2^53`,
so the resulting counter is not `2^53 + 1`. -/
theorem increase_at_two_pow_53 :
    increase [("counter", .num (.fin (2 ^ 53))), ("showCounter", .bool true)]
        { type := "counter/increase", props := [("amount", .num (.fin 1))] } =
      .ok [("counter", .num (.fin (2 ^ 53))), ("showCounter", .bool true)] ∧
    ¬ ∃ s', increase [("counter", .num (.fin (2 ^ 53))), ("showCounter", .bool true)]
        { type := "counter/increase", props := [("amount", .num (.fin 1))] } = .ok s' ∧
      getProp s' "counter" = .num (.fin (2 ^ 53 + 1)) := by
  have h : increase [("counter", .num (.fin (2 ^ 53))), ("showCounter", .bool true)]
        { type := "counter/increase", props := [("amount", .num (.fin 1))] } =
      .ok [("counter", .num (.fin (2 ^ 53))), ("showCounter", .bool true)] := by decide!
  refine ⟨h, ?_⟩
  rintro ⟨s', hs', hc⟩
  rw [h] at hs'
  cases hs'
  revert hc
  decide!

/-- C9: for every state and every action (whatever its `amount`), `increment` and
`increase` return a state in which `showCounter`, and every property other than
`counter`, reads as it did before. -/
theorem increment_increase_frame (s : Obj) (a : Action) :
    (∃ s', increment s a = .ok s' ∧ getProp s' "showCounter" = getProp s "showCounter" ∧
      ∀ k, k ≠ "counter" → getProp s' k = getProp s k) ∧
    (∃ s', increase s a = .ok s' ∧ getProp s' "showCounter" = getProp s "showCounter" ∧
      ∀ k, k ≠ "counter" → getProp s' k = getProp s k) := by
  refine ⟨⟨_, increment_eq s a, ?_, ?_⟩, ⟨_, increase_eq s a, ?_, ?_⟩⟩
  · exact getProp_setProp_other _ _ _ _ (by decide)
  · intro k hk; exact getProp_setProp_other _ _ _ _ hk
  · exact getProp_setProp_other _ _ _ _ (by decide)
  · intro k hk; exact getProp_setProp_other _ _ _ _ hk

/-- C10, amended: from a state whose counter is an integer `N`, `increase` by `K1` and
then by `K2` returns the same state as one `increase` by `K1 + K2`, and as `increase` by
`K2` and then by `K1`, provided the amount `K1 + K2` is itself a Number (a double holds
it exactly, so it is the value JavaScript computes for `K1 + K2`) and `N + K1`, `N + K2`
and `N + K1 + K2` all lie in `[-2^53, 2^53]`; and `increment` returns what `increase`
with amount `1` returns, from every state. -/
theorem increase_increase (s : Obj) (a1 a2 a12 : Action) (N K1 K2 : Int)
    (hs : getProp s "counter" = .num (.fin N))
    (h1 : getProp a1.props "amount" = .num (.fin K1))
    (h2 : getProp a2.props "amount" = .num (.fin K2))
    (hsum : isDouble (K1 + K2) = true)
    (h12 : getProp a12.props "amount" = .num (.fin (K1 + K2)))
    (hlo1 : -(2 ^ 53) ≤ N + K1) (hhi1 : N + K1 ≤ 2 ^ 53)
    (hlo2 : -(2 ^ 53) ≤ N + K2) (hhi2 : N + K2 ≤ 2 ^ 53)
    (hlo : -(2 ^ 53) ≤ N + K1 + K2) (hhi : N + K1 + K2 ≤ 2 ^ 53) :
    (increase s a1 >>= fun s1 => increase s1 a2) = increase s a12 ∧
    (increase s a1 >>= fun s1 => increase s1 a2) =
      (increase s a2 >>= fun s2 => increase s2 a1) ∧
    (∀ (t : Obj) (b b1 : Action), getProp b1.props "amount" = .num (.fin 1) →
      increment t b = increase t b1) ∧
    getProp a12.props "amount" = jsPlus (.num (.fin K1)) (.num (.fin K2)) := by
  have step : ∀ (a a' : Action) (K K' : Int),
      getProp a.props "amount" = .num (.fin K) → getProp a'.props "amount" = .num (.fin K') →
      -(2 ^ 53) ≤ N + K → N + K ≤ 2 ^ 53 → -(2 ^ 53) ≤ N + K + K' → N + K + K' ≤ 2 ^ 53 →
      (increase s a >>= fun s1 => increase s1 a') =
        .ok (setProp s "counter" (.num (.fin (N + K + K')))) := by
    intro a a' K K' hK hK' l1 u1 l2 u2
    rw [increase_eq s a]
    show increase _ a' = _
    rw [increase_eq, getProp_setProp_same, setProp_setProp_same, hs, hK, hK']
    simp only [jsPlus, toNumber]
    rw [add_fin_of_safe N K l1 u1, add_fin_of_safe (N + K) K' l2 u2]
  refine ⟨?_, ?_, ?_, ?_⟩
  · rw [step a1 a2 K1 K2 h1 h2 hlo1 hhi1 hlo hhi, increase_eq, hs, h12]
    simp only [jsPlus, toNumber]
    rw [add_fin_of_safe N (K1 + K2) (by omega) (by omega), Int.add_assoc]
  · rw [step a1 a2 K1 K2 h1 h2 hlo1 hhi1 hlo hhi,
      step a2 a1 K2 K1 h2 h1 hlo2 hhi2 (by omega) (by omega)]
    have e : N + K1 + K2 = N + K2 + K1 := by omega
    rw [e]
  · intro t b b1 hb
    rw [increment_eq, increase_eq, hb]
    rfl
  · have hexact : toDouble (K1 + K2) = JSNum.fin (K1 + K2) := of_decide_eq_true hsum
    rw [h12]
    show Prim.num (JSNum.fin (K1 + K2)) = Prim.num (toDouble (K1 + K2))
    rw [hexact]

/-- C10, witness: from counter `10`, increasing by `4` and then by `-6` is increasing by
`4 + -6`, and is increasing by `-6` and then by `4`. -/
theorem increase_increase_witness :
    (increase [("counter", .num (.fin 10)), ("showCounter", .bool true)]
        { type := "counter/increase", props := [("amount", .num (.fin 4))] } >>= fun s1 =>
      increase s1 { type := "counter/increase", props := [("amount", .num (.fin (-6)))] }) =
      increase [("counter", .num (.fin 10)), ("showCounter", .bool true)]
        { type := "counter/increase", props := [("amount", .num (.fin (4 + -6)))] } :=
  (increase_increase [("counter", .num (.fin 10)), ("showCounter", .bool true)]
    { type := "counter/increase", props := [("amount", .num (.fin 4))] }
    { type := "counter/increase", props := [("amount", .num (.fin (-6)))] }
    { type := "counter/increase", props := [("amount", .num (.fin (4 + -6)))] }
    10 4 (-6) rfl rfl rfl (by decide!) rfl (by decide) (by decide) (by decide) (by decide)
    (by decide) (by decide)).1

/-- Why the amount `K1 + K2` has to be a Number: with counter `-2^53`, `K1 = 2^53` and
`K2 = 1` the three bounds hold, but `2^53 + 1` is not a Number; the amount JavaScript
has for `K1 + K2` is `2^53`, and one `increase` by it gives counter `0` where the two
increases give `1`. -/
theorem increase_increase_sum_not_number :
    isDouble (2 ^ 53 + 1) = false ∧
    jsPlus (.num (.fin (2 ^ 53))) (.num (.fin 1)) = .num (.fin (2 ^ 53)) ∧
    (increase [("counter", .num (.fin (-(2 ^ 53)))), ("showCounter", .bool true)]
        { type := "counter/increase", props := [("amount", .num (.fin (2 ^ 53)))] } >>= fun s1 =>
      increase s1 { type := "counter/increase", props := [("amount", .num (.fin 1))] }) =
      .ok [("counter", .num (.fin 1)), ("showCounter", .bool true)] ∧
    increase [("counter", .num (.fin (-(2 ^ 53)))), ("showCounter", .bool true)]
        { type := "counter/increase",
          props := [("amount", jsPlus (.num (.fin (2 ^ 53))) (.num (.fin 1)))] } =
      .ok [("counter", .num (.fin 0)), ("showCounter", .bool true)] := by
  decide!

/-- C10, counterexample: from counter `2^53`, two increases by `1` leave the counter at
`2^53`, while one increase by `1 + 1` gives `2^53 + 2`. -/
theorem increase_increase_at_two_pow_53 :
    (increase [("counter", .num (.fin (2 ^ 53))), ("showCounter", .bool true)]
        { type := "counter/increase", props := [("amount", .num (.fin 1))] } >>= fun s1 =>
      increase s1 { type := "counter/increase", props := [("amount", .num (.fin 1))] }) =
      .ok [("counter", .num (.fin (2 ^ 53))), ("showCounter", .bool true)] ∧
    increase [("counter", .num (.fin (2 ^ 53))), ("showCounter", .bool true)]
        { type := "counter/increase", props := [("amount", .num (.fin (1 + 1)))] } =
      .ok [("counter", .num (.fin (2 ^ 53 + 2))), ("showCounter", .bool true)] ∧
    (increase [("counter", .num (.fin (2 ^ 53))), ("showCounter", .bool true)]
        { type := "counter/increase", props := [("amount", .num (.fin 1))] } >>= fun s1 =>
      increase s1 { type := "counter/increase", props := [("amount", .num (.fin 1))] }) ≠
      increase [("counter", .num (.fin (2 ^ 53))), ("showCounter", .bool true)]
        { type := "counter/increase", props := [("amount", .num (.fin (1 + 1)))] } := by
  decide!

/-! ## The defects in `decrement` and `toggle` -/

/-- C3: `toggle` reads the unbound identifier `showCounter`, so from every state it raises
a `ReferenceError` and returns no state, with `showCounter` negated or otherwise. -/
theorem toggle_raises (s : Obj) (a : Action) :
    toggle s a = .error (.referenceError "showCounter") ∧ ∀ s', toggle s a ≠ .ok s' := by
  refine ⟨toggle_eq s a, fun s' h => ?_⟩
  rw [toggle_eq] at h
  cases h

/-- C4: `increment` and `increase` return a state from every state and action, while
`decrement` and `toggle` raise a `ReferenceError` from every state and action. -/
theorem reducers_totality :
    (∀ s a, ∃ s', increment s a = .ok s') ∧
    (∀ s a, ∃ s', increase s a = .ok s') ∧
    (∀ s a, decrement s a = .error (.referenceError "state")) ∧
    (∀ s a, toggle s a = .error (.referenceError "showCounter")) :=
  ⟨fun s a => ⟨_, increment_eq s a⟩, fun s a => ⟨_, increase_eq s a⟩, decrement_eq, toggle_eq⟩

/-- C5: `decrement` declares no `state` parameter, so from every state it raises a
`ReferenceError`; it does not return what `increment` returns. -/
theorem decrement_raises (s : Obj) (a : Action) :
    decrement s a = .error (.referenceError "state") ∧ decrement s a ≠ increment s a := by
  refine ⟨decrement_eq s a, ?_⟩
  rw [decrement_eq, increment_eq]
  intro h
  cases h

/-- C6: two `toggle`s in succession raise at the first one, from every state; dispatched
on the store's initial state, the first `toggle` raises and the store keeps
`showCounter` true. -/
theorem toggle_twice_raises (s : Obj) (a a' : Action) :
    (toggle s a >>= fun s1 => toggle s1 a') = .error (.referenceError "showCounter") ∧
    dispatch initialState { type := "counter/toggle", props := [] } =
      .error (.referenceError "showCounter") ∧
    getProp (stateAfter initialState { type := "counter/toggle", props := [] })
      "showCounter" = .bool true := by
  refine ⟨?_, rfl, rfl⟩
  rw [toggle_eq]
  rfl

/-! ## The store's initial state -/

/-- C7, amended: the configured store starts in `initialState`, whose counter is `0` and
whose `showCounter` is true. -/
theorem store_initial :
    ∃ s, store = .ok s ∧ getProp s "counter" = .num (.fin 0) ∧
      getProp s "showCounter" = .bool true :=
  ⟨initialState, rfl, rfl, rfl⟩

/-- C7, counterexample: in the store's initial state `isAuthenticated` reads `undefined`,
not `false`, and the path `state.auth.isAuthenticated` raises a `TypeError`. -/
theorem store_initial_isAuthenticated :
    ∃ s, store = .ok s ∧ getProp s "isAuthenticated" = .undefined ∧
      getProp s "isAuthenticated" ≠ .bool false ∧
      getMember (getRoot (rootOf s) "auth") "isAuthenticated" =
        .error (.typeError "isAuthenticated") :=
  ⟨initialState, rfl, rfl, by decide, rfl⟩

/-! ## `App` on the states the store can hold -/

theorem getRoot_rootOf (s : Obj) (k : String) : getRoot (rootOf s) k = .prim (getProp s k) := by
  induction s with
  | nil => rfl
  | cons p rest ih =>
    obtain ⟨k1, v1⟩ := p
    simp only [rootOf, getRoot, getProp, List.map, List.lookup] at ih ⊢
    cases hb : (k == k1)
    · exact ih
    · rfl

theorem reducer_keeps_auth (s s' : Obj) (a : Action)
    (h : dispatch s a = .ok s') : getProp s' "auth" = getProp s "auth" := by
  unfold dispatch counterSlice.reducer at h
  simp only [Option.getD] at h
  split at h
  · rw [increment_eq] at h
    cases h
    exact getProp_setProp_other _ _ _ _ (by decide)
  · split at h
    · rw [decrement_eq] at h
      cases h
    · split at h
      · rw [increase_eq] at h
        cases h
        exact getProp_setProp_other _ _ _ _ (by decide)
      · split at h
        · rw [toggle_eq] at h
          cases h
        · cases h
          rfl

theorem stateAfter_keeps_auth (s : Obj) (a : Action) :
    getProp (stateAfter s a) "auth" = getProp s "auth" := by
  unfold stateAfter
  split
  · next s' h => exact reducer_keeps_auth s s' a h
  · rfl

theorem foldl_stateAfter_keeps_auth (actions : List Action) (s : Obj) :
    getProp (actions.foldl stateAfter s) "auth" = getProp s "auth" := by
  induction actions generalizing s with
  | nil => rfl
  | cons a rest ih =>
    rw [List.foldl_cons, ih, stateAfter_keeps_auth]

theorem App_of_no_auth (s : Obj) (h : getProp s "auth" = .undefined) :
    App (rootOf s) = .error (.typeError "isAuthenticated") := by
  unfold App
  rw [getRoot_rootOf, h]
  rfl

/-- On a root state that does carry an `auth` slice with a boolean `isAuthenticated`,
`App` renders `UserProfile` exactly when the flag is true, then `Header`, `Auth` and
`Counter`. -/
theorem App_of_auth_slice (root : RootState) (o : Obj) (b : Bool)
    (hroot : getRoot root "auth" = .obj o) (hflag : getProp o "isAuthenticated" = .bool b) :
    App root = .ok ((if b then [Node.component "UserProfile"] else []) ++
      [Node.component "Header", Node.component "Auth", Node.component "Counter"]) := by
  unfold App
  rw [hroot]
  simp only [getMember, hflag]
  cases b <;> rfl

/-- C8: on the state the store holds at creation and after any sequence of dispatched
actions, `App` renders nothing: its selector reads `isAuthenticated` of `state.auth`,
which is `undefined`, and raises a `TypeError`. -/
theorem App_raises_on_store_state (actions : List Action) :
    ∃ s0, store = .ok s0 ∧
      App (rootOf (actions.foldl stateAfter s0)) = .error (.typeError "isAuthenticated") := by
  refine ⟨initialState, rfl, App_of_no_auth _ ?_⟩
  rw [foldl_stateAfter_keeps_auth]
  rfl

end ReactRedux
